import Mathlib

/-!
Verification of the InfraGenie session-and-request orchestration core.

The definitions below are a shallow embedding of the TypeScript sources:

* `SessionManager` (session store)            — `initializeSession`, `addMessage`,
  `getHistory`, `clearSession`, `getUserInput`;
* `WebviewPanelManager` (orchestrator)        — `handleChatMessage`, `handleError`;
* `BackendAPIClient.makeRequest`              — `makeRequest` over a `FetchOutcome`
  that captures every observable outcome of the host `fetch` call;
* `configValidation`                          — `validateConfiguration`,
  `getValidatedConfiguration`;
* `sanitization`                              — `sanitizeUserInput`,
  `sanitizeAPIResponse`, `sanitizeFilename`, and a tree model of the
  DOMPurify allow-list pass used for `sanitizeAPIResponse`.

The two DOMPurify-backed string sanitizers (`sanitizeString`, the plain pass,
and the rich allow-list pass of `sanitizeAPIResponse`) live in an external
library, so the orchestrator definitions take them as explicit function
parameters `plain` and `rich`; everything the repository itself computes is
modelled concretely. JavaScript `String.prototype.trim` is modelled by
`jsTrim`, truthiness of strings by comparison with `""`, and `Boolean` on a
possibly-absent field by `jsBoolean` on `Option Bool`.
-/

namespace InfraGenie

/-- Speaker role of one conversation turn (`ChatMessage.role` in `types.ts`). -/
inductive ChatRole where
  | user
  | assistant
deriving DecidableEq, Repr

/-- One chat turn (`ChatMessage` in `types.ts`); `isPRD` is optional there,
hence `Option Bool` here. -/
structure ChatMessage where
  role : ChatRole
  content : String
  timestamp : Nat
  isPRD : Option Bool
deriving DecidableEq, Repr

/-- The intake questionnaire (`UserInputData` in `types.ts`). The TypeScript
type annotates `processingType` with a two-string union, but values arriving
from the webview are unchecked at runtime, so it is modelled as `String`. -/
structure UserInputData where
  appType : String
  expectedUsers : String
  trafficPattern : String
  processingType : String
  dataSensitivity : String
  regions : List String
  availabilityRequirement : String
  detailedDescription : String
deriving DecidableEq, Repr

/-- The private fields of `SessionManager`: the stored intake (null until a
session is initialized) and the ordered history. -/
structure SessionState where
  userInput : Option UserInputData
  history : List ChatMessage
deriving DecidableEq, Repr

/-- `SessionManager.initializeSession`: stores the intake and resets the
history to the empty array, whatever the previous state was. -/
def initializeSession (userInput : UserInputData) (_s : SessionState) : SessionState :=
  ⟨some userInput, []⟩

/-- `SessionManager.addMessage`: pushes one turn onto the history. -/
def addMessage (message : ChatMessage) (s : SessionState) : SessionState :=
  ⟨s.userInput, s.history ++ [message]⟩

/-- `SessionManager.getHistory`: returns the history (the source returns a
defensive copy `[...this.history]`, which denotes the same list). -/
def getHistory (s : SessionState) : List ChatMessage :=
  s.history

/-- `SessionManager.clearSession`: null intake, empty history. -/
def clearSession (_s : SessionState) : SessionState :=
  ⟨none, []⟩

/-- `SessionManager.getUserInput`. -/
def getUserInput (s : SessionState) : Option UserInputData :=
  s.userInput

/-- The whitespace class of JavaScript string trimming, restricted to the
ASCII characters that occur in this development. -/
def jsWhitespace (c : Char) : Bool :=
  c = ' ' || c = '\t' || c = '\n' || c = '\r' || c = '\x0b' || c = '\x0c'

/-- JavaScript `String.prototype.trim`: drop whitespace from both ends. -/
def jsTrim (s : String) : String :=
  (((s.toList.dropWhile jsWhitespace).reverse.dropWhile jsWhitespace).reverse).asString

/-- JavaScript `Boolean(x)` applied to a field that is either a boolean or
absent (`Boolean(response.isPRD)` in `sanitizeAPIResponse`). -/
def jsBoolean (b : Option Bool) : Bool :=
  b.getD false

/-- Outbound protocol messages (`ExtensionMessage` in `types.ts`); the
`canRetry` field of an `error` message is optional there, hence
`Option Bool`. -/
inductive ExtensionMessage where
  | chatResponse (message : String) (isPRD : Bool)
  | error (message : String) (canRetry : Option Bool)
  | loading (isLoading : Bool)
  | sessionCleared
deriving DecidableEq, Repr

/-- The classes thrown inside the extension host and caught by the
orchestrator: `NetworkError`, `TimeoutError`, `APIError` from
`BackendAPIClient.ts`, and `otherError` for any other caught value (its
`message` is absent or a possibly empty string). -/
inductive ThrownError where
  | networkError (message : String)
  | timeoutError (message : String)
  | apiError (message : String) (statusCode : Option Nat)
  | otherError (message : Option String)
deriving DecidableEq, Repr

/-- The backend reply as parsed from JSON (`APIResponse` in
`BackendAPIClient.ts`). The body is cast unchecked (`data as APIResponse`),
so `isPRD` may be absent. -/
structure APIResponse where
  message : String
  isPRD : Option Bool
  error : Option String
deriving DecidableEq, Repr

/-- The reply after `sanitizeAPIResponse`, whose `isPRD` is forced to a
boolean by `Boolean(response.isPRD)`. -/
structure SanitizedAPIResponse where
  message : String
  isPRD : Bool
  error : Option String
deriving DecidableEq, Repr

/-- `sanitizeAPIResponse` from `sanitization.ts`. `rich` is the DOMPurify
allow-list pass applied to `response.message`; `plain` is `sanitizeString`
(the strip-everything pass). The `error` field is kept only when truthy. -/
def sanitizeAPIResponse (rich plain : String → String) (response : APIResponse) :
    SanitizedAPIResponse :=
  { message := rich response.message
    isPRD := jsBoolean response.isPRD
    error :=
      match response.error with
      | some e => if e = "" then none else some (plain e)
      | none => none }

/-- `sanitizeUserInput` from `sanitization.ts`: every free-text field through
the plain sanitizer, `regions` elementwise with empties dropped, and
`processingType` kept only when it is one of the two enum strings, else
replaced by the `real-time` default. -/
def sanitizeUserInput (plain : String → String) (data : UserInputData) : UserInputData :=
  { appType := plain data.appType
    expectedUsers := plain data.expectedUsers
    trafficPattern := plain data.trafficPattern
    processingType :=
      if data.processingType = "real-time" || data.processingType = "batch" then
        data.processingType
      else "real-time"
    dataSensitivity := plain data.dataSensitivity
    regions := (data.regions.map plain).filter (fun item => item.length > 0)
    availabilityRequirement := plain data.availabilityRequirement
    detailedDescription := plain data.detailedDescription }

/-- `WebviewPanelManager.handleError`: translates a caught error into the one
outbound `error` notification, always with an explicit `canRetry` boolean.
`error.message` is read through JavaScript truthiness, so an absent or empty
message falls back to the generic text. -/
def handleError (error : ThrownError) : ExtensionMessage :=
  match error with
  | .networkError m => .error m (some true)
  | .timeoutError m => .error m (some true)
  | .apiError m _ => .error m (some false)
  | .otherError (some m) =>
      if m = "" then .error "An unexpected error occurred. Please try again." (some false)
      else .error m (some false)
  | .otherError none =>
      .error "An unexpected error occurred. Please try again." (some false)

/-- The two `BackendAPIClient` send operations the orchestrator can invoke,
with the payload it passes to each. -/
inductive BackendCall where
  | sendInitialRequest (userInput : UserInputData) (message : String)
  | sendMessage (message : String) (history : List ChatMessage)
deriving DecidableEq, Repr

/-- The request-type decision of `handleChatMessage`, taken on the session
state after the user turn has been appended: `userInput && history.length
=== 1` selects the initial request, anything else the follow-up carrying the
full history. -/
def routeCall (s : SessionState) (sanitizedMessage : String) : BackendCall :=
  match getUserInput s with
  | some userInput =>
      if (getHistory s).length = 1 then .sendInitialRequest userInput sanitizedMessage
      else .sendMessage sanitizedMessage (getHistory s)
  | none => .sendMessage sanitizedMessage (getHistory s)

/-- Everything observable about one `handleChatMessage` run: the session
state it leaves behind, the notifications posted to the webview in order,
and the backend call it issued, if any. -/
structure StepResult where
  state : SessionState
  emitted : List ExtensionMessage
  call : Option BackendCall
deriving DecidableEq, Repr

/-- `WebviewPanelManager.handleChatMessage`. `plain` is the DOMPurify-backed
`sanitizeChatMessage` / `sanitizeString`, `rich` the allow-list pass used by
`sanitizeAPIResponse`, `backend` the awaited API client (returning either a
parsed reply or the error it throws), `now` and `now2` the two `Date.now()`
readings. The guard, the append of the user turn, the request-type decision,
the success path and the catch block mirror the source line by line. -/
def handleChatMessage (plain rich : String → String)
    (backend : BackendCall → Except ThrownError APIResponse)
    (now now2 : Nat) (s : SessionState) (message : String) : StepResult :=
  let sanitizedMessage := plain message
  if sanitizedMessage = "" || jsTrim sanitizedMessage = "" then
    ⟨s, [.error "Message cannot be empty" none], none⟩
  else
    let userMessage : ChatMessage := ⟨.user, sanitizedMessage, now, none⟩
    let s1 := addMessage userMessage s
    let call := routeCall s1 sanitizedMessage
    match backend call with
    | .ok apiResponse =>
        let sanitizedResponse := sanitizeAPIResponse rich plain apiResponse
        let assistantMessage : ChatMessage :=
          ⟨.assistant, sanitizedResponse.message, now2, some sanitizedResponse.isPRD⟩
        let s2 := addMessage assistantMessage s1
        ⟨s2,
          [.loading true, .loading false,
            .chatResponse sanitizedResponse.message sanitizedResponse.isPRD],
          some call⟩
    | .error e =>
        ⟨s1, [.loading true, .loading false, handleError e], some call⟩

/-- JavaScript `error.message.includes('fetch')`. -/
def includesFetch (m : String) : Bool :=
  decide ("fetch".toList <:+: m.toList)

/-- JavaScript `m || 'Unknown error occurred'` on an error message that may
be absent or empty. -/
def jsOrUnknown (m : Option String) : String :=
  match m with
  | some s => if s = "" then "Unknown error occurred" else s
  | none => "Unknown error occurred"

deriving instance DecidableEq for Except

/-- Every outcome the `fetch` call inside `makeRequest` can surface to the
surrounding `try`/`catch`: an HTTP response (with the body text — `none` when
`response.text()` itself rejects — and the result of JSON-parsing the body),
an abort fired by the timeout, a `TypeError` (message inspected for
`'fetch'`), or any other rejection. -/
inductive FetchOutcome where
  | response (status : Nat) (bodyText : Option String) (jsonBody : Except String APIResponse)
  | abortError
  | typeError (message : String)
  | otherFailure (message : Option String)
deriving DecidableEq, Repr

/-- `BackendAPIClient.makeRequest`, the shared request path of
`sendInitialRequest` and `sendMessage`: classify the fetch outcome into a
parsed reply or exactly one of the three thrown error classes. `response.ok`
is status 200–299; a failed `response.text()` is replaced by
`'Unknown error'`; a JSON parse failure propagates to the catch block and is
folded into a generic `NetworkError` like every other unexpected failure. -/
def makeRequest (outcome : FetchOutcome) : Except ThrownError APIResponse :=
  match outcome with
  | .response status bodyText jsonBody =>
      if 200 ≤ status ∧ status ≤ 299 then
        match jsonBody with
        | .ok data => .ok data
        | .error parseMsg =>
            .error (.networkError ("Network error: " ++ jsOrUnknown (some parseMsg)))
      else
        .error (.apiError
          ("API error (" ++ toString status ++ "): " ++ bodyText.getD "Unknown error")
          (some status))
  | .abortError =>
      .error (.timeoutError "Request timed out. The backend API is taking too long to respond.")
  | .typeError m =>
      if includesFetch m then
        .error (.networkError "Unable to reach the backend API. Please check your internet connection.")
      else
        .error (.networkError ("Network error: " ++ jsOrUnknown (some m)))
  | .otherFailure m =>
      .error (.networkError ("Network error: " ++ jsOrUnknown m))

/-- A value stored under a settings key: a string, a number, or JSON null.
`vscode.workspace.getConfiguration(...).get` returns it untyped; the
validator inspects it with truthiness and `typeof` checks. -/
inductive SettingVal where
  | str (s : String)
  | num (n : Int)
  | nullVal
deriving DecidableEq, Repr

/-- The two persisted settings the resolver reads; `none` is an unset key
(`config.get` returns `undefined`). -/
structure RawConfig where
  apiEndpoint : Option SettingVal
  apiTimeout : Option SettingVal
deriving DecidableEq, Repr

/-- JavaScript falsiness of a possibly-undefined setting value (`!apiEndpoint`
in `validateConfiguration`): `undefined`, `null`, the empty string and the
number zero are falsy. -/
def falsySetting (v : Option SettingVal) : Bool :=
  match v with
  | none => true
  | some (.str s) => s = ""
  | some (.num n) => n = 0
  | some .nullVal => true

/-- Modelled from the spec: the source's `isValidURL` builds a WHATWG `URL`
(host-runtime parsing, not in the repository) and accepts exactly the http
and https protocols; modelled as the string carrying one of the two scheme
prefixes followed by a nonempty remainder. -/
def isValidURL (urlString : String) : Bool :=
  (("http://".toList.isPrefixOf urlString.toList) && urlString.length > 7)
    || (("https://".toList.isPrefixOf urlString.toList) && urlString.length > 8)

/-- JavaScript `String.prototype.startsWith` on the http scheme check. -/
def startsWithHttpInsecure (s : String) : Bool :=
  "http://".toList.isPrefixOf s.toList

/-- The endpoint half of `validateConfiguration`: the `if`/`else if` chain
pushing at most one error or one warning, in source order. -/
def endpointDiagnostics (v : Option SettingVal) : List String × List String :=
  if falsySetting v then (["API endpoint is required"], [])
  else
    match v with
    | some (.str s) =>
        if isValidURL s = false then
          (["API endpoint must be a valid URL (e.g., https://api.example.com)"], [])
        else if startsWithHttpInsecure s then
          ([], ["API endpoint should use HTTPS for security"])
        else ([], [])
    | _ => (["API endpoint must be a string"], [])

/-- The timeout half of `validateConfiguration`: required, numeric, at least
1000ms (error), above 300000ms or below 5000ms (warnings), in source order. -/
def timeoutDiagnostics (v : Option SettingVal) : List String × List String :=
  match v with
  | none => (["API timeout is required"], [])
  | some .nullVal => (["API timeout is required"], [])
  | some (.str _) => (["API timeout must be a number"], [])
  | some (.num n) =>
      if n < 1000 then (["API timeout must be at least 1000ms (1 second)"], [])
      else if n > 300000 then
        ([], ["API timeout is very high (>5 minutes). This may cause poor user experience."])
      else if n < 5000 then
        ([], ["API timeout is very low (<5 seconds). Requests may timeout frequently."])
      else ([], [])

/-- Result shape of `validateConfiguration` (`ValidationResult` in
`configValidation.ts`). -/
structure ValidationResult where
  isValid : Bool
  errors : List String
  warnings : List String
deriving DecidableEq, Repr

/-- `validateConfiguration` from `configValidation.ts`: endpoint checks, then
timeout checks; `isValid` is `errors.length === 0`. -/
def validateConfiguration (c : RawConfig) : ValidationResult :=
  let e := endpointDiagnostics c.apiEndpoint
  let t := timeoutDiagnostics c.apiTimeout
  { isValid := (e.1 ++ t.1).isEmpty
    errors := e.1 ++ t.1
    warnings := e.2 ++ t.2 }

/-- The configuration `getValidatedConfiguration` hands to the client. -/
structure ResolvedConfig where
  apiEndpoint : String
  apiTimeout : Int
deriving DecidableEq, Repr

/-- The fixed fallback configuration of `getValidatedConfiguration`. -/
def defaultConfig : ResolvedConfig :=
  ⟨"https://api.infragenie.com", 30000⟩

/-- `config.get(key, default)` for the endpoint: the stored value when one is
set, the default otherwise. A stored non-string never reaches this read in
the source, because validation has already failed and the defaults branch
returned first. -/
def getStringSetting (v : Option SettingVal) (d : String) : String :=
  match v with
  | some (.str s) => s
  | _ => d

/-- `config.get(key, default)` for the timeout, under the same proviso. -/
def getNumberSetting (v : Option SettingVal) (d : Int) : Int :=
  match v with
  | some (.num n) => n
  | _ => d

/-- `getValidatedConfiguration` from `configValidation.ts`: on any validation
error the fixed defaults are returned whole; otherwise the supplied values
are read out with defaults for unset keys. Logging and the notification
popups are side effects with no bearing on the returned value. -/
def getValidatedConfiguration (c : RawConfig) : ResolvedConfig :=
  let validation := validateConfiguration c
  if validation.isValid then
    { apiEndpoint := getStringSetting c.apiEndpoint "https://api.infragenie.com"
      apiTimeout := getNumberSetting c.apiTimeout 30000 }
  else defaultConfig

/-- The character class removed by `sanitizeFilename`:
path separators and the other filesystem-hostile characters. -/
def badFileChar (c : Char) : Bool :=
  c = '/' || c = '\\' || c = ':' || c = '*' || c = '?' || c = '"'
    || c = '<' || c = '>' || c = '|'

/-- The class trimmed from both ends by `sanitizeFilename`: dots and
whitespace (the regex `[.\s]`). -/
def dotOrSpace (c : Char) : Bool :=
  c = '.' || jsWhitespace c

/-- One pass of the trimming regex of `sanitizeFilename`: strip leading and
trailing runs of dots and whitespace. -/
def trimDotsSpaces (cs : List Char) : List Char :=
  ((cs.dropWhile dotOrSpace).reverse.dropWhile dotOrSpace).reverse

/-- The fixed document extension appended by `sanitizeFilename`. -/
def mdExt : List Char :=
  [ '.', 'm', 'd' ]

/-- The filename after character removal and end trimming, before the
emptiness fallback and the extension check. -/
def sanitizedCore (filename : String) : List Char :=
  trimDotsSpaces (filename.toList.filter (fun c => !badFileChar c))

/-- `sanitizeFilename` from `sanitization.ts`: remove hostile characters,
trim leading and trailing dots and spaces, fall back to `untitled.md` when
nothing is left, and append `.md` unless already present. -/
def sanitizeFilename (filename : String) : String :=
  let core := sanitizedCore filename
  if core = [] then "untitled.md"
  else if mdExt.isSuffixOf core then core.asString
  else (core ++ mdExt).asString

/-- An error caught in `handleSavePRD`: the host file-system error objects
carry an optional `code` and an optional `message` (the handler's own
`No workspace folder open` error carries only a message). -/
structure FsError where
  code : Option String
  message : Option String
deriving DecidableEq, Repr

/-- The message classification of the `handleSavePRD` catch block: known
`code` values first, then a truthy `error.message`, else the generic
fallback text. -/
def savePRDErrorMessage (e : FsError) : String :=
  if e.code = some "EACCES" || e.code = some "PermissionDenied" then
    "Permission denied. Unable to write file."
  else if e.code = some "ENOSPC" || e.code = some "NoSpace" then
    "Disk full. Unable to save file."
  else
    match e.message with
    | some m => if m = "" then "Failed to save PRD" else "Failed to save file: " ++ m
    | none => "Failed to save PRD"

/-- `WebviewPanelManager.handleSavePRD`, as observed at the webview boundary:
sanitize the filename; with no workspace folder, throw
`No workspace folder open. Please open a folder first.` into the catch
block; otherwise attempt the write (`write` is the host file capability).
Success posts no webview notification (only a host toast); every failure
posts one `error` notification built by the catch block — with no
`canRetry` field. -/
def handleSavePRD (filename : String) (hasWorkspace : Bool)
    (write : String → Except FsError Unit) : List ExtensionMessage :=
  let sanitizedFilename := sanitizeFilename filename
  if hasWorkspace then
    match write sanitizedFilename with
    | .ok _ => []
    | .error e => [.error (savePRDErrorMessage e) none]
  else
    [.error (savePRDErrorMessage
      ⟨none, some "No workspace folder open. Please open a folder first."⟩) none]

mutual
/-- Modelled from the spec: the rich-reply sanitizer of `sanitizeAPIResponse`
delegates to DOMPurify (an external library, not in the repository), which
the spec describes as tree-based HTML sanitization over an explicit
tag/attribute allow-list. Documents are modelled as parsed node trees: text
nodes and element nodes with a tag, an attribute list and children. -/
inductive HNode where
  | text (s : String)
  | elem (tag : String) (attrs : List (String × String)) (children : HNodeList)
/-- Sequences of sibling nodes of the parsed document. -/
inductive HNodeList where
  | nil
  | cons (head : HNode) (tail : HNodeList)
end

/-- Concatenation of node sequences (splicing a stripped element's children
into its parent's child list). -/
def appendNodes (a b : HNodeList) : HNodeList :=
  match a with
  | .nil => b
  | .cons n rest => .cons n (appendNodes rest b)

/-- The `ALLOWED_TAGS` configuration passed to DOMPurify in
`sanitizeAPIResponse` (`sanitization.ts`). -/
def allowedTags : List String :=
  ["p", "br", "strong", "em", "u", "h1", "h2", "h3", "h4", "h5", "h6",
   "ul", "ol", "li", "blockquote", "code", "pre", "a", "table", "thead",
   "tbody", "tr", "th", "td", "hr", "div", "span"]

/-- The `ALLOWED_ATTR` configuration of `sanitizeAPIResponse`. -/
def allowedAttrs : List String :=
  ["href", "title", "class"]

/-- Modelled from the spec: an attribute survives when its name is on the
allow-list and it is not a `javascript:` URI in `href`; inline event-handler
attributes (`on...`) are outside the allow-list and so are dropped by the
same test. -/
def keepAttr (attr : String × String) : Bool :=
  allowedAttrs.contains attr.1
    && !(attr.1 == "href" && "javascript:".toList.isPrefixOf attr.2.toList)

/-- Attribute filtering of one element. -/
def filterAttrs (attrs : List (String × String)) : List (String × String) :=
  attrs.filter keepAttr

mutual
/-- Modelled from the spec: the allow-list pass. Script blocks are removed
together with their content; an allow-listed element keeps its tag with
filtered attributes and sanitized children; any other element is stripped
with its (sanitized) children spliced into its place, content preserved. -/
def sanitizeNode (n : HNode) : HNodeList :=
  match n with
  | .text s => .cons (.text s) .nil
  | .elem tag attrs children =>
      if tag = "script" then .nil
      else if allowedTags.contains tag then
        .cons (.elem tag (filterAttrs attrs) (sanitizeNodes children)) .nil
      else sanitizeNodes children
def sanitizeNodes (ns : HNodeList) : HNodeList :=
  match ns with
  | .nil => .nil
  | .cons n rest => appendNodes (sanitizeNode n) (sanitizeNodes rest)
end

mutual
/-- Markup that is already clean: every element uses an allow-listed tag and
only allow-listed, non-dangerous attributes, recursively. -/
def cleanNode (n : HNode) : Bool :=
  match n with
  | .text _ => true
  | .elem tag attrs children =>
      allowedTags.contains tag && attrs.all keepAttr && cleanNodes children
def cleanNodes (ns : HNodeList) : Bool :=
  match ns with
  | .nil => true
  | .cons n rest => cleanNode n && cleanNodes rest
end

/-- C6: `startSession` stores the given intake and clears the history
unconditionally; in particular after `startSession A`, `appendTurn t1`,
`startSession B` the history is empty and the stored intake is `B`, never a
merge of `A` and `B`. -/
theorem spec_c6_start_session_resets (s : SessionState) (A B : UserInputData)
    (t1 : ChatMessage) :
    (initializeSession B (addMessage t1 (initializeSession A s))).history = []
    ∧ getUserInput (initializeSession B (addMessage t1 (initializeSession A s))) = some B
    ∧ ∀ intake : UserInputData, initializeSession intake s = ⟨some intake, []⟩ :=
  ⟨rfl, rfl, fun _ => rfl⟩

/-- C10: intake sanitization forces the processing-mode field into the
two-value enum: one of the two strings is kept unchanged, anything else is
silently replaced by the `real-time` default (never run through the free-text
sanitizer, never rejected). -/
theorem spec_c10_processing_type (plain : String → String) (data : UserInputData) :
    ((sanitizeUserInput plain data).processingType = "real-time"
      ∨ (sanitizeUserInput plain data).processingType = "batch")
    ∧ (data.processingType = "real-time" ∨ data.processingType = "batch" →
        (sanitizeUserInput plain data).processingType = data.processingType)
    ∧ (data.processingType ≠ "real-time" ∧ data.processingType ≠ "batch" →
        (sanitizeUserInput plain data).processingType = "real-time") := by
  unfold sanitizeUserInput
  by_cases h1 : data.processingType = "real-time" <;>
    by_cases h2 : data.processingType = "batch" <;>
      simp [h1, h2]

/-- C3: a message whose sanitized text is empty is rejected locally: the
orchestrator emits exactly the one validation error notification (with no
retry flag and no loading toggles), makes no backend call, and leaves the
session state untouched. -/
theorem spec_c3_empty_message_rejected (plain rich : String → String)
    (backend : BackendCall → Except ThrownError APIResponse) (now now2 : Nat)
    (s : SessionState) (message : String)
    (hempty : jsTrim (plain message) = "") :
    handleChatMessage plain rich backend now now2 s message
      = ⟨s, [ExtensionMessage.error "Message cannot be empty" none], none⟩ := by
  unfold handleChatMessage
  simp [hempty]

/-- Witness for C3 at a concrete input: a sanitizer that maps everything to
the empty string triggers the local rejection. -/
theorem spec_c3_empty_message_rejected_witness :
    handleChatMessage (fun _ => "") (fun s => s)
        (fun _ => Except.error (ThrownError.networkError "down")) 0 0 ⟨none, []⟩ "hi"
      = ⟨⟨none, []⟩, [ExtensionMessage.error "Message cannot be empty" none], none⟩ :=
  spec_c3_empty_message_rejected (fun _ => "") (fun s => s)
    (fun _ => Except.error (ThrownError.networkError "down")) 0 0 ⟨none, []⟩ "hi" rfl

/-- C2 counterexample: the claim says every outbound error notification
carries a retryability flag, but the local empty-message validation
notification is emitted with no `canRetry` field at all (`none`, which is
neither `some true` nor `some false`). -/
theorem spec_c2_counterexample :
    ExtensionMessage.error "Message cannot be empty" none
      ∈ (handleChatMessage (fun _ => "") (fun s => s)
          (fun _ => Except.error (ThrownError.networkError "down")) 0 0
          ⟨none, []⟩ "hello").emitted
    ∧ (none : Option Bool) ≠ some true
    ∧ (none : Option Bool) ≠ some false := by
  refine ⟨?_, by decide, by decide⟩
  simp [handleChatMessage, jsTrim]

/-- C2 as amended: error notifications produced by the central error handler
always carry an explicit retryability flag, true exactly for network and
timeout failures and false for API and all other failures; the local
empty-message validation notification and every error notification of the
file-save handler, by contrast, omit the flag entirely. -/
theorem spec_c2_amended_retry_flag (e : ThrownError) (plain rich : String → String)
    (backend : BackendCall → Except ThrownError APIResponse) (now now2 : Nat)
    (s : SessionState) (message : String)
    (hempty : jsTrim (plain message) = "") :
    (∃ m b, handleError e = ExtensionMessage.error m (some b)
        ∧ (b = true ↔ (∃ t, e = ThrownError.networkError t)
            ∨ (∃ t, e = ThrownError.timeoutError t)))
    ∧ (handleChatMessage plain rich backend now now2 s message).emitted
        = [ExtensionMessage.error "Message cannot be empty" none]
    ∧ (∀ (fn : String) (hasWorkspace : Bool) (write : String → Except FsError Unit)
        (m : String) (r : Option Bool),
        ExtensionMessage.error m r ∈ handleSavePRD fn hasWorkspace write → r = none) := by
  refine ⟨?_, ?_, ?_⟩
  · match e with
    | .networkError m => exact ⟨m, true, rfl, by simp⟩
    | .timeoutError m => exact ⟨m, true, rfl, by simp⟩
    | .apiError m c => exact ⟨m, false, rfl, by simp⟩
    | .otherError (some m) =>
        by_cases hm : m = ""
        · exact ⟨"An unexpected error occurred. Please try again.", false,
            by simp [handleError, hm], by simp⟩
        · exact ⟨m, false, by simp [handleError, hm], by simp⟩
    | .otherError none =>
        exact ⟨"An unexpected error occurred. Please try again.", false, rfl, by simp⟩
  · unfold handleChatMessage
    simp [hempty]
  · intro fn hasWorkspace write m r hmem
    unfold handleSavePRD at hmem
    cases hasWorkspace with
    | false =>
        simp at hmem
        exact hmem.2
    | true =>
        dsimp only at hmem
        cases hw : write (sanitizeFilename fn) with
        | ok u => simp [hw] at hmem
        | error e =>
            rw [hw] at hmem
            simp at hmem
            exact hmem.2

/-- Witness for the amended C2 at concrete inputs: a timeout error gets the
flag `some true`, the validation path emits the flagless notification, and a
permission-denied save failure emits its classified message, also without the
flag. -/
theorem spec_c2_amended_retry_flag_witness :
    (∃ m b, handleError (ThrownError.timeoutError "slow")
        = ExtensionMessage.error m (some b)
        ∧ (b = true ↔ (∃ t, ThrownError.timeoutError "slow" = ThrownError.networkError t)
            ∨ (∃ t, ThrownError.timeoutError "slow" = ThrownError.timeoutError t)))
    ∧ (handleChatMessage (fun _ => "") (fun s => s)
        (fun _ => Except.error (ThrownError.networkError "down")) 0 0
        ⟨none, []⟩ "x").emitted
      = [ExtensionMessage.error "Message cannot be empty" none]
    ∧ (∀ (fn : String) (hasWorkspace : Bool) (write : String → Except FsError Unit)
        (m : String) (r : Option Bool),
        ExtensionMessage.error m r ∈ handleSavePRD fn hasWorkspace write → r = none)
    ∧ handleSavePRD "report" true (fun _ => Except.error ⟨some "EACCES", none⟩)
      = [ExtensionMessage.error "Permission denied. Unable to write file." none] :=
  have h := spec_c2_amended_retry_flag (ThrownError.timeoutError "slow") (fun _ => "")
    (fun s => s) (fun _ => Except.error (ThrownError.networkError "down")) 0 0
    ⟨none, []⟩ "x" rfl
  ⟨h.1, h.2.1, h.2.2, by decide⟩

/-- Helper: a nonempty trim forces the string itself nonempty, so the
empty-message guard of `handleChatMessage` does not fire. -/
theorem guard_not_fired {m : String} (h : jsTrim m ≠ "") :
    (m = "" || jsTrim m = "") = false := by
  have hm : m ≠ "" := by
    intro he
    exact h (by rw [he]; rfl)
  simp [hm, h]

/-- Helper: whatever the backend answers, the call `handleChatMessage`
issues past the emptiness guard is the routed one. -/
theorem handleChatMessage_call (plain rich : String → String)
    (backend : BackendCall → Except ThrownError APIResponse) (now now2 : Nat)
    (s : SessionState) (message : String)
    (hne : jsTrim (plain message) ≠ "") :
    (handleChatMessage plain rich backend now now2 s message).call
      = some (routeCall (addMessage ⟨ChatRole.user, plain message, now, none⟩ s)
          (plain message)) := by
  have hguard := guard_not_fired hne
  unfold handleChatMessage
  rw [if_neg (by simp_all)]
  dsimp only
  split <;> rfl

/-- C1: the request-type decision. With intake stored and the history, after
appending the user turn, of length exactly one, the backend is called through
`sendInitialRequest` with the stored intake and the sanitized message; in
every other case — including a null intake, which does not crash — through
`sendMessage` with the sanitized message and the full history including the
just-appended user turn. -/
theorem spec_c1_request_routing (plain rich : String → String)
    (backend : BackendCall → Except ThrownError APIResponse) (now now2 : Nat)
    (s : SessionState) (message : String)
    (hne : jsTrim (plain message) ≠ "") :
    (∀ u, getUserInput s = some u → s.history = [] →
        (handleChatMessage plain rich backend now now2 s message).call
          = some (BackendCall.sendInitialRequest u (plain message)))
    ∧ (getUserInput s = none ∨ s.history ≠ [] →
        (handleChatMessage plain rich backend now now2 s message).call
          = some (BackendCall.sendMessage (plain message)
              (s.history ++ [⟨ChatRole.user, plain message, now, none⟩]))) := by
  constructor
  · intro u hu hnil
    rw [handleChatMessage_call plain rich backend now now2 s message hne]
    have hu2 : s.userInput = some u := hu
    unfold routeCall addMessage getUserInput getHistory
    simp [hu2, hnil]
  · intro hother
    rw [handleChatMessage_call plain rich backend now now2 s message hne]
    unfold routeCall addMessage getUserInput getHistory
    rcases hother with hnone | hne'
    · have hn2 : s.userInput = none := hnone
      simp [hn2]
    · have hpos : 0 < s.history.length := List.length_pos.mpr hne'
      have hlen : (s.history
          ++ [(⟨ChatRole.user, plain message, now, none⟩ : ChatMessage)]).length ≠ 1 := by
        simp only [List.length_append, List.length_singleton]
        omega
      cases hu : s.userInput with
      | none => simp
      | some u => simp [hlen, hne']

/-- Witness for C1 at a concrete input: with a stored intake and an empty
prior history the first send goes through the initial request. -/
theorem spec_c1_request_routing_witness :
    (∀ u, getUserInput ⟨some ⟨"web", "100", "steady", "real-time", "low",
          ["us-east"], "99.9", "a web app"⟩, []⟩ = some u →
        ([] : List ChatMessage) = [] →
        (handleChatMessage (fun t => t) (fun t => t)
            (fun _ => Except.ok ⟨"Hi", none, none⟩) 5 6
            ⟨some ⟨"web", "100", "steady", "real-time", "low",
              ["us-east"], "99.9", "a web app"⟩, []⟩ "Hello").call
          = some (BackendCall.sendInitialRequest u "Hello"))
    ∧ (getUserInput ⟨some ⟨"web", "100", "steady", "real-time", "low",
          ["us-east"], "99.9", "a web app"⟩, []⟩ = none
        ∨ ([] : List ChatMessage) ≠ [] →
        (handleChatMessage (fun t => t) (fun t => t)
            (fun _ => Except.ok ⟨"Hi", none, none⟩) 5 6
            ⟨some ⟨"web", "100", "steady", "real-time", "low",
              ["us-east"], "99.9", "a web app"⟩, []⟩ "Hello").call
          = some (BackendCall.sendMessage "Hello"
              ([] ++ [⟨ChatRole.user, "Hello", 5, none⟩]))) :=
  spec_c1_request_routing (fun t => t) (fun t => t)
    (fun _ => Except.ok ⟨"Hi", none, none⟩) 5 6
    ⟨some ⟨"web", "100", "steady", "real-time", "low",
      ["us-east"], "99.9", "a web app"⟩, []⟩ "Hello" (by decide)

/-- C4: the shared request path resolves every fetch outcome to exactly one
member of the closed taxonomy: the parsed reply on 2xx, `TimeoutError` on an
abort, `APIError` carrying the status code and body text on every non-2xx
response, and a generic `NetworkError` for JSON-parse failures, `TypeError`s
and every other unexpected failure. -/
theorem spec_c4_outcome_taxonomy (outcome : FetchOutcome) :
    (∀ status bodyText data, outcome = .response status bodyText (.ok data) →
        200 ≤ status → status ≤ 299 → makeRequest outcome = .ok data)
    ∧ (∀ status bodyText jsonBody, outcome = .response status bodyText jsonBody →
        ¬(200 ≤ status ∧ status ≤ 299) →
        makeRequest outcome = .error (.apiError
          ("API error (" ++ toString status ++ "): " ++ bodyText.getD "Unknown error")
          (some status)))
    ∧ (outcome = .abortError → makeRequest outcome
        = .error (.timeoutError "Request timed out. The backend API is taking too long to respond."))
    ∧ (∀ status bodyText parseMsg, outcome = .response status bodyText (.error parseMsg) →
        200 ≤ status → status ≤ 299 →
        ∃ g, makeRequest outcome = .error (.networkError g))
    ∧ (∀ m, outcome = .typeError m → ∃ g, makeRequest outcome = .error (.networkError g))
    ∧ (∀ m, outcome = .otherFailure m → ∃ g, makeRequest outcome = .error (.networkError g)) := by
  refine ⟨?_, ?_, ?_, ?_, ?_, ?_⟩
  · intro status bodyText data h h1 h2
    subst h
    simp [makeRequest, h1, h2]
  · intro status bodyText jsonBody h hnot
    subst h
    simp [makeRequest, hnot]
  · intro h
    subst h
    rfl
  · intro status bodyText parseMsg h h1 h2
    subst h
    exact ⟨"Network error: " ++ jsOrUnknown (some parseMsg), by simp [makeRequest, h1, h2]⟩
  · intro m h
    subst h
    by_cases hf : includesFetch m = true
    · exact ⟨"Unable to reach the backend API. Please check your internet connection.",
        by simp [makeRequest, hf]⟩
    · exact ⟨"Network error: " ++ jsOrUnknown (some m), by simp [makeRequest, hf]⟩
  · intro m h
    subst h
    exact ⟨"Network error: " ++ jsOrUnknown m, rfl⟩

/-- C5: configuration resolution is total and atomic: any validation error
makes the resolved configuration exactly the fixed defaults, while an
error-free validation (warnings allowed) keeps the supplied endpoint and
timeout unchanged; `isValid` mirrors the emptiness of the returned error
diagnostics. -/
theorem spec_c5_config_fallback (c : RawConfig) :
    ((validateConfiguration c).errors ≠ [] → getValidatedConfiguration c = defaultConfig)
    ∧ (∀ s n, c.apiEndpoint = some (.str s) → c.apiTimeout = some (.num n) →
        (validateConfiguration c).errors = [] →
        getValidatedConfiguration c = ⟨s, n⟩)
    ∧ ((validateConfiguration c).isValid = true ↔ (validateConfiguration c).errors = []) := by
  have hv : (validateConfiguration c).isValid = (validateConfiguration c).errors.isEmpty := rfl
  refine ⟨?_, ?_, ?_⟩
  · intro herr
    have : (validateConfiguration c).isValid = false := by
      rw [hv, List.isEmpty_eq_false]
      exact herr
    unfold getValidatedConfiguration
    simp [this]
  · intro s n hs hn herr
    have hvalid : (validateConfiguration c).isValid = true := by
      rw [hv, herr]
      rfl
    unfold getValidatedConfiguration
    simp [hvalid, hs, hn, getStringSetting, getNumberSetting]
  · rw [hv]
    exact List.isEmpty_iff

/-- Witness for C5 at a concrete input: an insecure endpoint with a low
timeout draws two warnings but no error, and the supplied values are used
unchanged. -/
theorem spec_c5_config_fallback_witness :
    getValidatedConfiguration ⟨some (.str "http://example.com/a"), some (.num 2000)⟩
      = ⟨"http://example.com/a", 2000⟩ :=
  (spec_c5_config_fallback ⟨some (.str "http://example.com/a"), some (.num 2000)⟩).2.1
    "http://example.com/a" 2000 rfl rfl (by decide)

/-- C7: on a successful backend reply the final-document flag sent in the
`chatResponse` notification and stored on the appended assistant turn is
`Boolean` of the reply's `isPRD` field: the field's value when it is a
boolean, `false` when it is absent. -/
theorem spec_c7_final_document_flag (plain rich : String → String)
    (backend : BackendCall → Except ThrownError APIResponse) (now now2 : Nat)
    (s : SessionState) (message : String) (response : APIResponse)
    (hne : jsTrim (plain message) ≠ "")
    (hok : backend (routeCall (addMessage ⟨ChatRole.user, plain message, now, none⟩ s)
        (plain message)) = Except.ok response) :
    (handleChatMessage plain rich backend now now2 s message).emitted
      = [ExtensionMessage.loading true, ExtensionMessage.loading false,
          ExtensionMessage.chatResponse (rich response.message) (jsBoolean response.isPRD)]
    ∧ (handleChatMessage plain rich backend now now2 s message).state.history.getLast?
      = some ⟨ChatRole.assistant, rich response.message, now2,
          some (jsBoolean response.isPRD)⟩
    ∧ (response.isPRD = none → jsBoolean response.isPRD = false)
    ∧ (∀ b, response.isPRD = some b → jsBoolean response.isPRD = b) := by
  have hguard := guard_not_fired hne
  have hstep : handleChatMessage plain rich backend now now2 s message
      = ⟨addMessage ⟨ChatRole.assistant, rich response.message, now2,
            some (jsBoolean response.isPRD)⟩
          (addMessage ⟨ChatRole.user, plain message, now, none⟩ s),
        [ExtensionMessage.loading true, ExtensionMessage.loading false,
          ExtensionMessage.chatResponse (rich response.message) (jsBoolean response.isPRD)],
        some (routeCall (addMessage ⟨ChatRole.user, plain message, now, none⟩ s)
          (plain message))⟩ := by
    unfold handleChatMessage
    rw [if_neg (by simp_all)]
    dsimp only
    rw [hok]
    rfl
  refine ⟨?_, ?_, fun h => by simp [jsBoolean, h], fun b h => by simp [jsBoolean, h]⟩
  · rw [hstep]
  · rw [hstep]
    unfold addMessage
    simp

/-- Witness for C7 at a concrete input: a reply whose `isPRD` field is absent
is delivered and stored with the flag `false`. -/
theorem spec_c7_final_document_flag_witness :
    (handleChatMessage (fun t => t) (fun t => t)
        (fun _ => Except.ok ⟨"Done", none, none⟩) 5 6 ⟨none, []⟩ "Hello").emitted
      = [ExtensionMessage.loading true, ExtensionMessage.loading false,
          ExtensionMessage.chatResponse "Done" (jsBoolean none)]
    ∧ (handleChatMessage (fun t => t) (fun t => t)
        (fun _ => Except.ok ⟨"Done", none, none⟩) 5 6 ⟨none, []⟩ "Hello").state.history.getLast?
      = some ⟨ChatRole.assistant, "Done", 6, some (jsBoolean none)⟩
    ∧ ((none : Option Bool) = none → jsBoolean none = false)
    ∧ (∀ b, (none : Option Bool) = some b → jsBoolean none = b) :=
  spec_c7_final_document_flag (fun t => t) (fun t => t)
    (fun _ => Except.ok ⟨"Done", none, none⟩) 5 6 ⟨none, []⟩ "Hello"
    ⟨"Done", none, none⟩ (by decide) rfl

/-- Helper: the head of a `dropWhile` never satisfies the dropped
predicate. -/
theorem head?_dropWhile_false (p : Char → Bool) :
    ∀ (l : List Char) (a : Char), (l.dropWhile p).head? = some a → p a = false := by
  intro l
  induction l with
  | nil => intro a h; simp [List.dropWhile] at h
  | cons x xs ih =>
      intro a h
      by_cases hx : p x
      · rw [List.dropWhile_cons, if_pos hx] at h
        exact ih a h
      · rw [List.dropWhile_cons, if_neg hx] at h
        simp at h
        subst h
        simpa using hx

/-- Helper: dropping a prefix does not change a nonempty tail's last
element. -/
theorem getLast?_dropWhile (p : Char → Bool) :
    ∀ (l : List Char) (a : Char), (l.dropWhile p).getLast? = some a → l.getLast? = some a := by
  intro l
  induction l with
  | nil => intro a h; simp [List.dropWhile] at h
  | cons x xs ih =>
      intro a h
      by_cases hx : p x
      · rw [List.dropWhile_cons, if_pos hx] at h
        have h2 := ih a h
        cases xs with
        | nil => simp [List.dropWhile] at h
        | cons y ys => rw [List.getLast?_cons_cons]; exact h2
      · rw [List.dropWhile_cons, if_neg hx] at h
        exact h

/-- Helper: the first character surviving the end trim is not a dot or
space. -/
theorem head?_trimDotsSpaces (l : List Char) (a : Char)
    (h : (trimDotsSpaces l).head? = some a) : dotOrSpace a = false := by
  unfold trimDotsSpaces at h
  rw [List.head?_reverse] at h
  have h2 := getLast?_dropWhile dotOrSpace _ _ h
  rw [List.getLast?_reverse] at h2
  exact head?_dropWhile_false dotOrSpace _ _ h2

/-- Helper: the last character surviving the end trim is not a dot or
space. -/
theorem getLast?_trimDotsSpaces (l : List Char) (a : Char)
    (h : (trimDotsSpaces l).getLast? = some a) : dotOrSpace a = false := by
  unfold trimDotsSpaces at h
  rw [List.getLast?_reverse] at h
  exact head?_dropWhile_false dotOrSpace _ _ h

/-- Helper: trimming only keeps characters of the original list. -/
theorem mem_trimDotsSpaces {c : Char} {l : List Char}
    (h : c ∈ trimDotsSpaces l) : c ∈ l := by
  unfold trimDotsSpaces at h
  rw [List.mem_reverse] at h
  have h1 := (List.dropWhile_sublist dotOrSpace).subset h
  rw [List.mem_reverse] at h1
  exact (List.dropWhile_sublist dotOrSpace).subset h1

/-- Helper: every character of the trimmed, filtered core is allowed. -/
theorem sanitizedCore_chars (filename : String) {c : Char}
    (h : c ∈ sanitizedCore filename) : badFileChar c = false := by
  unfold sanitizedCore at h
  have h1 := mem_trimDotsSpaces h
  rw [List.mem_filter] at h1
  simpa using h1.2

/-- C8: for every input, the sanitized file name contains none of the
filesystem-hostile characters, ends with the fixed `.md` extension, is never
empty; the trimmed core, before the extension is appended, starts and ends
with neither a dot nor a space, and an input whose core is empty yields the
fixed placeholder `untitled.md`. -/
theorem spec_c8_sanitize_filename (filename : String) :
    (∀ c ∈ (sanitizeFilename filename).toList, badFileChar c = false)
    ∧ mdExt <:+ (sanitizeFilename filename).toList
    ∧ sanitizeFilename filename ≠ ""
    ∧ (sanitizedCore filename = [] → sanitizeFilename filename = "untitled.md")
    ∧ (∀ hd, (sanitizedCore filename).head? = some hd → dotOrSpace hd = false)
    ∧ (∀ lastc, (sanitizedCore filename).getLast? = some lastc → dotOrSpace lastc = false) := by
  refine ⟨?_, ?_, ?_, ?_, ?_, ?_⟩
  · intro c hc
    unfold sanitizeFilename at hc
    by_cases h0 : sanitizedCore filename = []
    · rw [if_pos h0] at hc
      exact (by decide : ∀ x ∈ ("untitled.md").toList, badFileChar x = false) c hc
    · rw [if_neg h0] at hc
      by_cases hsuf : mdExt.isSuffixOf (sanitizedCore filename) = true
      · rw [if_pos hsuf] at hc
        exact sanitizedCore_chars filename hc
      · rw [if_neg hsuf] at hc
        have hc2 : c ∈ sanitizedCore filename ++ mdExt := hc
        rcases List.mem_append.mp hc2 with h | h
        · exact sanitizedCore_chars filename h
        · exact (by decide : ∀ x ∈ mdExt, badFileChar x = false) c h
  · unfold sanitizeFilename
    by_cases h0 : sanitizedCore filename = []
    · rw [if_pos h0]
      decide
    · rw [if_neg h0]
      by_cases hsuf : mdExt.isSuffixOf (sanitizedCore filename) = true
      · rw [if_pos hsuf]
        exact List.isSuffixOf_iff_suffix.mp hsuf
      · rw [if_neg hsuf]
        exact List.suffix_append (sanitizedCore filename) mdExt
  · unfold sanitizeFilename
    by_cases h0 : sanitizedCore filename = []
    · rw [if_pos h0]
      decide
    · rw [if_neg h0]
      by_cases hsuf : mdExt.isSuffixOf (sanitizedCore filename) = true
      · rw [if_pos hsuf]
        intro hemp
        exact h0 (congrArg String.toList hemp)
      · rw [if_neg hsuf]
        intro hemp
        have h3 : sanitizedCore filename ++ mdExt = [] := congrArg String.toList hemp
        exact absurd (List.append_eq_nil.mp h3).2 (by decide)
  · intro h0
    unfold sanitizeFilename
    rw [if_pos h0]
  · intro hd h
    exact head?_trimDotsSpaces _ hd h
  · intro lastc h
    exact getLast?_trimDotsSpaces _ lastc h

/-- Helper: `nil` is right neutral for node concatenation. -/
theorem appendNodes_nil (a : HNodeList) : appendNodes a .nil = a :=
  match a with
  | .nil => rfl
  | .cons n rest => by
      rw [show appendNodes (.cons n rest) .nil = .cons n (appendNodes rest .nil) from rfl,
        appendNodes_nil rest]

/-- Helper: node concatenation is associative. -/
theorem appendNodes_assoc (a b c : HNodeList) :
    appendNodes (appendNodes a b) c = appendNodes a (appendNodes b c) :=
  match a with
  | .nil => rfl
  | .cons n rest => by
      rw [show appendNodes (.cons n rest) b = .cons n (appendNodes rest b) from rfl,
        show appendNodes (.cons n (appendNodes rest b)) c
          = .cons n (appendNodes (appendNodes rest b) c) from rfl,
        appendNodes_assoc rest b c]
      rfl

/-- Helper: sanitization distributes over node concatenation. -/
theorem sanitizeNodes_append (a b : HNodeList) :
    sanitizeNodes (appendNodes a b)
      = appendNodes (sanitizeNodes a) (sanitizeNodes b) :=
  match a with
  | .nil => rfl
  | .cons n rest => by
      rw [show appendNodes (.cons n rest) b = .cons n (appendNodes rest b) from rfl,
        show sanitizeNodes (.cons n (appendNodes rest b))
          = appendNodes (sanitizeNode n) (sanitizeNodes (appendNodes rest b)) from rfl,
        sanitizeNodes_append rest b,
        show sanitizeNodes (.cons n rest)
          = appendNodes (sanitizeNode n) (sanitizeNodes rest) from rfl,
        appendNodes_assoc]

/-- Helper: the attribute filter is idempotent. -/
theorem filterAttrs_idem (attrs : List (String × String)) :
    filterAttrs (filterAttrs attrs) = filterAttrs attrs := by
  simp [filterAttrs, List.filter_filter]

/-- Helper: `script` is not an allow-listed tag. -/
theorem script_not_allowed : allowedTags.contains "script" = false := by decide

/-- Helper: one element node, given idempotence on its children, sanitizes
idempotently. -/
theorem sanitizeNode_elem_idem (tag : String) (attrs : List (String × String))
    (children : HNodeList)
    (ih : sanitizeNodes (sanitizeNodes children) = sanitizeNodes children) :
    sanitizeNodes (sanitizeNode (.elem tag attrs children))
      = sanitizeNode (.elem tag attrs children) := by
  by_cases hscript : tag = "script"
  · simp [sanitizeNode, hscript, sanitizeNodes]
  · by_cases hallow : tag ∈ allowedTags
    · simp [sanitizeNode, hscript, hallow, sanitizeNodes, appendNodes_nil,
        filterAttrs_idem, ih]
    · simp [sanitizeNode, hscript, hallow, ih]

mutual
/-- Helper: sanitizing the sanitization of one node changes nothing. -/
theorem sanitizeNode_idem (n : HNode) : sanitizeNodes (sanitizeNode n) = sanitizeNode n :=
  match n with
  | .text _ => rfl
  | .elem tag attrs children =>
      sanitizeNode_elem_idem tag attrs children (sanitizeNodes_idem children)
/-- Helper: the sanitizer is idempotent on every node sequence. -/
theorem sanitizeNodes_idem (ns : HNodeList) :
    sanitizeNodes (sanitizeNodes ns) = sanitizeNodes ns :=
  match ns with
  | .nil => rfl
  | .cons n rest =>
      have h1 := sanitizeNode_idem n
      have h2 := sanitizeNodes_idem rest
      by rw [show sanitizeNodes (.cons n rest)
            = appendNodes (sanitizeNode n) (sanitizeNodes rest) from rfl,
          sanitizeNodes_append, h1, h2]
end

/-- C9: on markup already consisting only of allow-listed tags and
attributes, a second application of the rich-reply sanitizer to its own
output changes nothing. -/
theorem spec_c9_rich_sanitizer_idempotent (ns : HNodeList)
    (_hclean : cleanNodes ns = true) :
    sanitizeNodes (sanitizeNodes ns) = sanitizeNodes ns :=
  sanitizeNodes_idem ns

/-- A small clean document: one paragraph with a class attribute holding a
link and emphasized text. -/
def exampleCleanDoc : HNodeList :=
  .cons (.elem "p" [("class", "intro")]
    (.cons (.text "see ")
      (.cons (.elem "a" [("href", "https://example.com"), ("title", "x")]
        (.cons (.text "here") .nil))
        (.cons (.elem "em" [] (.cons (.text "now") .nil)) .nil))))
    .nil

/-- Witness for C9 at a concrete input: the example document is clean and
the second sanitization pass is the identity on the first pass's output. -/
theorem spec_c9_rich_sanitizer_idempotent_witness :
    cleanNodes exampleCleanDoc = true
    ∧ sanitizeNodes (sanitizeNodes exampleCleanDoc) = sanitizeNodes exampleCleanDoc :=
  ⟨by decide, spec_c9_rich_sanitizer_idempotent exampleCleanDoc (by decide)⟩

end InfraGenie
